import Mathlib

set_option autoImplicit false

/-!
Verification of the resilient job-execution controller of `caption_videos.py`
(Magix "Oracle", predictive OOM prevention).

Shallow embedding conventions:
* Python floats are modelled as `ℚ`.  All scale values the controller ever
  manipulates are multiples of 1/10 taken from {1.0, 0.9, 0.7, 0.5} minus
  multiples of 0.1, so boundary comparisons against 0.25 and 1.0 behave
  identically in `ℚ` and in binary floating point.
* A video-info dictionary (`get_video_info`) is a record of optional rational
  attributes; the `name`/`path`/`timestamp` entries of the Python dicts do not
  influence any of the logic modelled here and are omitted.
* External collaborators (ffprobe, ffmpeg downscaling, the Qwen worker, the
  signal-based watchdog) are oracles: each loop iteration of
  `process_single_video_with_prediction` consumes an `AttemptEnv` describing
  what the probe, the downscaler and the blocking worker call did during that
  iteration.
* The `while current_scale >= MIN_SCALE` loop is embedded with explicit fuel;
  `retryLoopF_fuel_irrel` proves the result is independent of the fuel once the
  fuel dominates the (scale-derived) iteration bound, so the fuel-12 wrapper
  `process_single_video_with_prediction` computes the loop's true result for
  every start scale ≤ 1.
-/

/-- The six metrics tracked by `OOMPredictor.get_safe_thresholds`
(`caption_videos.py` line 101). -/
inductive Metric
  | file_size_mb
  | total_pixels
  | width
  | height
  | frame_count
  | duration
deriving DecidableEq

/-- The attribute vector returned by `get_video_info`: every metric entry may be
absent from the dict (ffprobe failure paths), hence `Option ℚ`. -/
structure VideoInfo where
  file_size_mb : Option ℚ := none
  total_pixels : Option ℚ := none
  width : Option ℚ := none
  height : Option ℚ := none
  frame_count : Option ℚ := none
  duration : Option ℚ := none
deriving DecidableEq

/-- Dictionary lookup `f.get(metric)` on a video-info / failure-record dict. -/
def getMetric (f : VideoInfo) : Metric → Option ℚ
  | .file_size_mb => f.file_size_mb
  | .total_pixels => f.total_pixels
  | .width => f.width
  | .height => f.height
  | .frame_count => f.frame_count
  | .duration => f.duration

/-- Dictionary lookup with default 0, `video_info.get(metric, 0)`
(lines 130, 134, 138, 142, 146). -/
def getD0 (x : Option ℚ) : ℚ := x.getD 0

/-- The conservative default thresholds used when the OOM history is empty or
holds no value for a metric (lines 90-97 and 108-115; both tables coincide). -/
def defaultThresholds : Metric → ℚ
  | .file_size_mb => 500
  | .total_pixels => 1920 * 1080 * 300
  | .width => 1920
  | .height => 1080
  | .frame_count => 300
  | .duration => 30

/-- Python `min(values)` on a nonempty list, as a left fold. -/
def listMin (v : ℚ) (vs : List ℚ) : ℚ := vs.foldl min v

/-- `OOMPredictor.get_safe_thresholds` (lines 86-118).  The failure history is
the list `self.oom_failures`; each record stores the attribute vector of the
failed video (the appended `timestamp` key is not a tracked metric and is
dropped).  For each metric: 80% of the smallest recorded value, or the
conservative default when the history holds no value for it. -/
def get_safe_thresholds (hist : List VideoInfo) (m : Metric) : ℚ :=
  if hist.isEmpty then defaultThresholds m
  else
    match hist.filterMap (fun f => getMetric f m) with
    | [] => defaultThresholds m
    | v :: vs => listMin v vs * (4 / 5)

/-- The `risks` list built by `predict_oom_risk` (lines 127-148): one
`(label, excess)` pair per checked attribute whose value exceeds its threshold,
in source order.  Note the source checks only five of the six tracked metrics:
`duration` is never compared. -/
def riskList (hist : List VideoInfo) (info : VideoInfo) : List (String × ℚ) :=
  (if getD0 info.file_size_mb > get_safe_thresholds hist .file_size_mb then
    [("file_size", getD0 info.file_size_mb / get_safe_thresholds hist .file_size_mb)] else []) ++
  (if getD0 info.total_pixels > get_safe_thresholds hist .total_pixels then
    [("total_pixels", getD0 info.total_pixels / get_safe_thresholds hist .total_pixels)] else []) ++
  (if getD0 info.width > get_safe_thresholds hist .width then
    [("width", getD0 info.width / get_safe_thresholds hist .width)] else []) ++
  (if getD0 info.height > get_safe_thresholds hist .height then
    [("height", getD0 info.height / get_safe_thresholds hist .height)] else []) ++
  (if getD0 info.frame_count > get_safe_thresholds hist .frame_count then
    [("frame_count", getD0 info.frame_count / get_safe_thresholds hist .frame_count)] else [])

/-- Python `max(risks, key=lambda x: x[1])` (line 154): the first element whose
second component is maximal, as a left fold that replaces the current best only
on strict increase. -/
def maxByExcess (r : String × ℚ) (rs : List (String × ℚ)) : String × ℚ :=
  rs.foldl (fun best x => if x.2 > best.2 then x else best) r

/-- The reason component of the predictor result.  The source renders it as the
string `f"{risk_type} {risk_ratio:.1f}x over threshold"`; the numeric `:.1f`
formatting is presentational, so the reason is kept structured as the dominant
attribute label together with its exact excess. -/
inductive RiskReason
  | safe
  | over (attr : String) (excess : ℚ)
deriving DecidableEq

/-- Result triple of `predict_oom_risk`: `(is_risky, suggested_scale, reason)`. -/
structure RiskResult where
  is_risky : Bool
  suggested_scale : ℚ
  reason : RiskReason
deriving DecidableEq

/-- `OOMPredictor.predict_oom_risk` (lines 120-166). -/
def predict_oom_risk (hist : List VideoInfo) (info : VideoInfo) : RiskResult :=
  match riskList hist info with
  | [] => ⟨false, 1, .safe⟩
  | r :: rs =>
    let m := maxByExcess r rs
    let s : ℚ := if m.2 > 2 then 1 / 2 else if m.2 > 3 / 2 then 7 / 10 else 9 / 10
    ⟨true, s, .over m.1 m.2⟩

/-- `MIN_SCALE = 0.25` (line 37). -/
def MIN_SCALE : ℚ := 1 / 4

/-- `SCALE_STEP = 0.1` (line 38). -/
def SCALE_STEP : ℚ := 1 / 10

/-- What the blocking worker call did during one loop iteration (an oracle for
lines 399-414 plus the exception classification at 430-479): success with the
raw decoded caption, a watchdog `TimeoutError`, a CUDA out-of-memory
`RuntimeError`, or any other exception. -/
inductive WorkerOutcome
  | success (c : String)
  | timeout
  | oom
  | otherError
deriving DecidableEq

/-- Oracle for everything external that one iteration of the retry loop
touches: whether a `create_downscaled_video` call issued at the top of the
iteration (line 388) or in the OOM handler (line 466) succeeds, what
`get_num_frames` reports for the current variant (line 395), and what the
blocking worker call does. -/
structure AttemptEnv where
  preDownscaleOk : Bool := true
  frames : Option ℕ := none
  worker : WorkerOutcome := .otherError
  retryDownscaleOk : Bool := true
deriving DecidableEq

/-- Which source branch terminated (or continued) a loop iteration. -/
inductive AttemptKind
  | preDownscaleFail
  | framesSkip
  | workerSuccess
  | timeout
  | oom
  | otherError
deriving DecidableEq

/-- One iteration of the retry loop as recorded in the execution trace: the
scale at which the attempt ran, whether the blocking worker call was reached,
and the branch taken. -/
structure AttemptRec where
  scale : ℚ
  workerInvoked : Bool
  kind : AttemptKind
deriving DecidableEq

/-- Observable result of one `process_single_video_with_prediction` call:
the Python return value (`None`, the stripped caption, or the in-band string
`"TIMEOUT"`), the trace of loop iterations, the failure records appended to the
predictor history by `record_oom_failure`, the number of blocking worker
invocations, and whether the `SIGALRM` watchdog is still armed on return. -/
structure LoopOut where
  result : Option String
  attempts : List AttemptRec
  recorded : List VideoInfo
  workerCalls : ℕ
  alarmArmed : Bool
deriving DecidableEq

/-- The `finally: signal.alarm(0)` clause (line 481): every exit of the loop
body passes through it, so whatever armed state the body left behind is
cleared. -/
def finallyDisarm (o : LoopOut) : LoopOut := { o with alarmArmed := false }

/-- Python `str.strip()` on the decoded caption (line 428): drop leading and
trailing whitespace (`Char.isWhitespace` standing in for `str.isspace`). -/
def pyStrip (s : String) : String :=
  String.mk (((s.data.dropWhile Char.isWhitespace).reverse.dropWhile
    Char.isWhitespace).reverse)

/-- The `while current_scale >= MIN_SCALE` retry loop of
`process_single_video_with_prediction` (lines 384-483), with explicit fuel.
State: `i` indexes the per-iteration oracle, `scale` is `current_scale`, and
`isOrig` is `current_video == vid`.  Inside an iteration, exits occurring after
`signal.alarm(TIMEOUT_SECONDS)` (line 393) leave the watchdog armed until the
`finally` clause disarms it; the OOM-continue path disarms explicitly
(line 443) before the next iteration re-arms.  Fuel exhaustion returns the same
value as the loop-exit path; `retryLoopF_fuel_irrel` below shows the fuel is
irrelevant once it dominates the scale-derived iteration bound. -/
def retryLoopF (info : VideoInfo) (env : ℕ → AttemptEnv) (fuel : ℕ) (i : ℕ)
    (scale : ℚ) (isOrig : Bool) : LoopOut :=
  match fuel with
  | 0 => ⟨none, [], [], 0, false⟩
  | fuel + 1 =>
    if scale < MIN_SCALE then ⟨none, [], [], 0, false⟩
    else
      let e := env i
      if scale < 1 ∧ isOrig = true ∧ e.preDownscaleOk = false then
        finallyDisarm ⟨none, [⟨scale, false, .preDownscaleFail⟩], [], 0, false⟩
      else
        match e.frames with
        | none => finallyDisarm ⟨none, [⟨scale, false, .framesSkip⟩], [], 0, true⟩
        | some n =>
          if n < 2 then
            finallyDisarm ⟨none, [⟨scale, false, .framesSkip⟩], [], 0, true⟩
          else
            match e.worker with
            | .success c =>
              finallyDisarm ⟨some (pyStrip c), [⟨scale, true, .workerSuccess⟩], [], 1, true⟩
            | .timeout =>
              finallyDisarm ⟨some "TIMEOUT", [⟨scale, true, .timeout⟩], [], 1, true⟩
            | .otherError =>
              finallyDisarm ⟨none, [⟨scale, true, .otherError⟩], [], 1, true⟩
            | .oom =>
              let recs : List VideoInfo := if scale = 1 then [info] else []
              let scale2 := scale - SCALE_STEP
              if scale2 < MIN_SCALE then
                finallyDisarm ⟨none, [⟨scale, true, .oom⟩], recs, 1, false⟩
              else if e.retryDownscaleOk = false then
                finallyDisarm ⟨none, [⟨scale, true, .oom⟩], recs, 1, false⟩
              else
                let rest := retryLoopF info env fuel (i + 1) scale2 false
                ⟨rest.result, ⟨scale, true, .oom⟩ :: rest.attempts,
                  recs ++ rest.recorded, 1 + rest.workerCalls, rest.alarmArmed⟩
termination_by structural fuel

/-- `process_single_video_with_prediction` (lines 357-483): consult the risk
predictor on the probed attributes, choose the starting scale, and run the
retry loop.  Twelve units of fuel strictly dominate the loop's iteration count
for every reachable start scale (at most 8 iterations from scale 1already). -/
def process_single_video_with_prediction (hist : List VideoInfo)
    (info : VideoInfo) (env : ℕ → AttemptEnv) : LoopOut :=
  retryLoopF info env 12 0
    (if (predict_oom_risk hist info).is_risky then
      (predict_oom_risk hist info).suggested_scale else 1) true

/-- Output-sink format, the `--format` choice of the CLI (line 610). -/
inductive Fmt
  | txt
  | jsonl
deriving DecidableEq

/-- One backlog item as the queue driver sees it: its stable path string
`str(vid)`, the file name of its caption file `vid.with_suffix(".txt").name`,
and the attribute vector `get_video_info` reports for it. -/
structure Item where
  path : String
  txtName : String
  info : VideoInfo
deriving DecidableEq

/-- The key under which a successful caption is written to the output sink
(lines 567-572): the `.txt` file name in txt mode, the `path` field of the
appended record in jsonl mode. -/
def itemKey : Fmt → Item → String
  | .txt, v => v.txtName
  | .jsonl, v => v.path

/-- The already-captioned set computed once at startup (lines 500-512),
as the list of `str(vid)` keys: in txt mode the items of the backlog whose
caption file already exists in the sink, in jsonl mode the `path` fields parsed
from the existing jsonl lines (the sink state itself). -/
def doneSet : Fmt → List String → List Item → List String
  | .txt, sink, videos =>
    (videos.filter (fun v => decide (v.txtName ∈ sink))).map Item.path
  | .jsonl, sink, _ => sink

/-- Mutable state of the `caption` main loop (lines 496-587): the output sink
(as its list of keys), the predictor history `oom_predictor.oom_failures`, the
`timeout_count` and `processed_count` counters, a generation counter bumped on
each model reload, and the contents of the two quarantine directories
(`timeout_failures` and `bad_frames`), as item paths in move order. -/
structure DriverState where
  sink : List String
  hist : List VideoInfo
  timeoutCount : ℕ
  processedCount : ℕ
  workerGen : ℕ
  movedTimeout : List String
  movedBad : List String
deriving DecidableEq

/-- Per-item disposition taken by the driver loop body. -/
inductive ItemOutcome
  | skipped
  | timedOut
  | failedOut
  | succeeded
deriving DecidableEq

/-- Log entry for one driver-loop iteration: which item, whether
`process_single_video_with_prediction` was invoked at all, how many blocking
worker calls it made, the disposition, the two counters after the iteration,
and whether the model was reloaded during the iteration. -/
structure StepLog where
  path : String
  invoked : Bool
  workerCalls : ℕ
  outcome : ItemOutcome
  timeoutAfter : ℕ
  processedAfter : ℕ
  reloaded : Bool
deriving DecidableEq

/-- Body of the driver loop (lines 537-587) for one item `v`: skip if its key
is in the done set (line 538); otherwise run the retry controller, append any
new failure records to the history, and route the result — the in-band
`"TIMEOUT"` string to the timeout quarantine with a reload every third timeout
(which also resets `processed_count`, line 557), `None` to the failure
quarantine, and any other caption to the output sink with a reload every 300th
counted success (line 582). -/
def driverStep (fmt : Fmt) (done : List String) (envs : Item → ℕ → AttemptEnv)
    (st : DriverState) (v : Item) : DriverState × StepLog :=
  if v.path ∈ done then
    (st, ⟨v.path, false, 0, .skipped, st.timeoutCount, st.processedCount, false⟩)
  else
    let r := process_single_video_with_prediction st.hist v.info (envs v)
    let hist2 := st.hist ++ r.recorded
    match r.result with
    | some s =>
      if s = "TIMEOUT" then
        let tc := st.timeoutCount + 1
        let reload := tc % 3 = 0
        ({ st with
            hist := hist2
            timeoutCount := tc
            processedCount := if reload then 0 else st.processedCount
            workerGen := if reload then st.workerGen + 1 else st.workerGen
            movedTimeout := st.movedTimeout ++ [v.path] },
          ⟨v.path, true, r.workerCalls, .timedOut, tc,
            if reload then 0 else st.processedCount, decide reload⟩)
      else
        let pc := st.processedCount + 1
        let reload := pc % 300 = 0
        ({ st with
            hist := hist2
            sink := itemKey fmt v :: st.sink
            processedCount := pc
            workerGen := if reload then st.workerGen + 1 else st.workerGen },
          ⟨v.path, true, r.workerCalls, .succeeded, st.timeoutCount, pc,
            decide reload⟩)
    | none =>
      ({ st with hist := hist2, movedBad := st.movedBad ++ [v.path] },
        ⟨v.path, true, r.workerCalls, .failedOut, st.timeoutCount,
          st.processedCount, false⟩)

/-- The driver loop (line 537) over the remaining backlog, threading the state
and collecting one log entry per item. -/
def runFrom (fmt : Fmt) (done : List String) (envs : Item → ℕ → AttemptEnv) :
    DriverState → List Item → DriverState × List StepLog
  | st, [] => (st, [])
  | st, v :: vs =>
    let p := driverStep fmt done envs st v
    let rest := runFrom fmt done envs p.1 vs
    (rest.1, p.2 :: rest.2)

/-- `caption` (lines 487-599): compute the done set from the initial sink
state, then drive the backlog from fresh counters and empty quarantines. -/
def runDriver (fmt : Fmt) (videos : List Item) (envs : Item → ℕ → AttemptEnv)
    (sink0 : List String) (hist0 : List VideoInfo) :
    DriverState × List StepLog :=
  runFrom fmt (doneSet fmt sink0 videos) envs
    ⟨sink0, hist0, 0, 0, 0, [], []⟩ videos

attribute [local semireducible] Rat.mul Rat.sub Rat.add Rat.inv

/-! ### Concrete inputs used by witnesses and counterexamples -/

/-- An item attribute vector whose only known metric is a 100-second duration. -/
def infoDur : VideoInfo := { duration := some 100 }

/-- A failure record whose only known metric is width 1000. -/
def recW1000 : VideoInfo := { width := some 1000 }

/-- An item attribute vector whose only known metric is width 900. -/
def infoW900 : VideoInfo := { width := some 900 }

/-- An item attribute vector whose only known metric is width 2000. -/
def infoW2000 : VideoInfo := { width := some 2000 }

/-- Oracle: probe finds 10 frames and the worker returns caption "ok". -/
def envSuccess : ℕ → AttemptEnv := fun _ => { frames := some 10, worker := .success "ok" }

/-- Oracle: probe finds 10 frames and the worker call times out. -/
def envTimeout : ℕ → AttemptEnv := fun _ => { frames := some 10, worker := .timeout }

/-- Oracle: probe finds 10 frames and every worker call hits CUDA OOM. -/
def envOOM : ℕ → AttemptEnv := fun _ => { frames := some 10, worker := .oom }

/-- Oracle: the frame probe finds a single frame. -/
def envOneFrame : ℕ → AttemptEnv := fun _ => { frames := some 1, worker := .success "ok" }

/-- Oracle: the worker succeeds with a caption that strips to "TIMEOUT". -/
def envTimeoutText : ℕ → AttemptEnv :=
  fun _ => { frames := some 2, worker := .success " TIMEOUT " }

/-- A backlog item with path "a". -/
def itemA : Item := ⟨"a", "a.txt", {}⟩

/-- A backlog item with path "t". -/
def itemT : Item := ⟨"t", "t.txt", {}⟩

/-- Per-item oracles: item "t" times out, every other item succeeds. -/
def envsSel : Item → ℕ → AttemptEnv :=
  fun v => if v.path = "t" then envTimeout else envSuccess

/-- Per-item oracle handing every item a single usable frame. -/
def envsOne : Item → ℕ → AttemptEnv := fun _ => envOneFrame

/-- Per-item oracle handing every item a worker caption that strips to
"TIMEOUT". -/
def envsTT : Item → ℕ → AttemptEnv := fun _ => envTimeoutText

/-- A backlog on which the cumulative number of successes reaches 300 while the
success counter stands at 1: 299 successes, then three timeouts (the third
reloads the model and resets the counter), then one more success. -/
def c7videos : List Item := List.replicate 299 itemA ++ [itemT, itemT, itemT] ++ [itemA]

/-- The driver state at startup: empty sink, no history, zeroed counters. -/
def st0 : DriverState := ⟨[], [], 0, 0, 0, [], []⟩

/-! ### Helper lemmas about the predictor -/

theorem listMin_cons (v x : ℚ) (vs : List ℚ) :
    listMin v (x :: vs) = listMin (min v x) vs := rfl

theorem listMin_mem (v : ℚ) (vs : List ℚ) : listMin v vs ∈ v :: vs := by
  induction vs generalizing v with
  | nil => simp [listMin]
  | cons x vs ih =>
    rw [listMin_cons]
    rcases List.mem_cons.mp (ih (min v x)) with h | h
    · rcases min_choice v x with hm | hm
      · exact List.mem_cons.mpr (Or.inl (h.trans hm))
      · exact List.mem_cons.mpr (Or.inr (List.mem_cons.mpr (Or.inl (h.trans hm))))
    · exact List.mem_cons.mpr (Or.inr (List.mem_cons.mpr (Or.inr h)))

theorem listMin_le (v : ℚ) (vs : List ℚ) :
    listMin v vs ≤ v ∧ ∀ x ∈ vs, listMin v vs ≤ x := by
  induction vs generalizing v with
  | nil => simp [listMin]
  | cons x vs ih =>
    rw [listMin_cons]
    obtain ⟨h1, h2⟩ := ih (min v x)
    refine ⟨le_trans h1 (min_le_left v x), ?_⟩
    intro y hy
    rcases List.mem_cons.mp hy with hy | hy
    · rw [hy]
      exact le_trans h1 (min_le_right v x)
    · exact h2 y hy

theorem maxByExcess_cons (r x : String × ℚ) (rs : List (String × ℚ)) :
    maxByExcess r (x :: rs) = maxByExcess (if x.2 > r.2 then x else r) rs := rfl

theorem maxByExcess_mem (r : String × ℚ) (rs : List (String × ℚ)) :
    maxByExcess r rs ∈ r :: rs := by
  induction rs generalizing r with
  | nil => simp [maxByExcess]
  | cons x rs ih =>
    rw [maxByExcess_cons]
    by_cases hc : x.2 > r.2
    · rw [if_pos hc]
      rcases List.mem_cons.mp (ih x) with h | h
      · exact List.mem_cons.mpr (Or.inr (List.mem_cons.mpr (Or.inl h)))
      · exact List.mem_cons.mpr (Or.inr (List.mem_cons.mpr (Or.inr h)))
    · rw [if_neg hc]
      rcases List.mem_cons.mp (ih r) with h | h
      · exact List.mem_cons.mpr (Or.inl h)
      · exact List.mem_cons.mpr (Or.inr (List.mem_cons.mpr (Or.inr h)))

theorem maxByExcess_ge (r : String × ℚ) (rs : List (String × ℚ)) :
    ∀ p ∈ r :: rs, p.2 ≤ (maxByExcess r rs).2 := by
  induction rs generalizing r with
  | nil =>
    intro p hp
    rcases List.mem_cons.mp hp with hp | hp
    · simp [maxByExcess, hp]
    · simp at hp
  | cons x rs ih =>
    intro p hp
    rw [maxByExcess_cons]
    by_cases hc : x.2 > r.2
    · rw [if_pos hc]
      have hhead := ih x x (List.mem_cons.mpr (Or.inl rfl))
      rcases List.mem_cons.mp hp with hp | hp
      · rw [hp]
        exact le_trans (le_of_lt hc) hhead
      · rcases List.mem_cons.mp hp with hp | hp
        · rw [hp]
          exact hhead
        · exact ih x p (List.mem_cons.mpr (Or.inr hp))
    · rw [if_neg hc]
      have hhead := ih r r (List.mem_cons.mpr (Or.inl rfl))
      rcases List.mem_cons.mp hp with hp | hp
      · rw [hp]
        exact hhead
      · rcases List.mem_cons.mp hp with hp | hp
        · rw [hp]
          exact le_trans (le_of_not_lt hc) hhead
        · exact ih r p (List.mem_cons.mpr (Or.inr hp))

theorem riskList_eq_nil_iff (hist : List VideoInfo) (info : VideoInfo) :
    riskList hist info = [] ↔
      ¬(getD0 info.file_size_mb > get_safe_thresholds hist .file_size_mb) ∧
      ¬(getD0 info.total_pixels > get_safe_thresholds hist .total_pixels) ∧
      ¬(getD0 info.width > get_safe_thresholds hist .width) ∧
      ¬(getD0 info.height > get_safe_thresholds hist .height) ∧
      ¬(getD0 info.frame_count > get_safe_thresholds hist .frame_count) := by
  unfold riskList
  split_ifs <;> simp_all

theorem predict_oom_risk_of_nil (hist : List VideoInfo) (info : VideoInfo)
    (h : riskList hist info = []) :
    predict_oom_risk hist info = ⟨false, 1, .safe⟩ := by
  unfold predict_oom_risk
  rw [h]

theorem predict_oom_risk_of_cons (hist : List VideoInfo) (info : VideoInfo)
    (r : String × ℚ) (rs : List (String × ℚ)) (h : riskList hist info = r :: rs) :
    predict_oom_risk hist info =
      ⟨true,
        if (maxByExcess r rs).2 > 2 then 1 / 2
        else if (maxByExcess r rs).2 > 3 / 2 then 7 / 10 else 9 / 10,
        .over (maxByExcess r rs).1 (maxByExcess r rs).2⟩ := by
  unfold predict_oom_risk
  rw [h]

theorem predict_suggested_le_one (hist : List VideoInfo) (info : VideoInfo) :
    (predict_oom_risk hist info).suggested_scale ≤ 1 := by
  unfold predict_oom_risk
  cases h : riskList hist info with
  | nil => norm_num
  | cons r rs =>
    simp only
    split_ifs <;> norm_num

theorem get_safe_thresholds_default (hist : List VideoInfo) (m : Metric)
    (h : hist.filterMap (fun f => getMetric f m) = []) :
    get_safe_thresholds hist m = defaultThresholds m := by
  unfold get_safe_thresholds
  split
  · rfl
  · rw [h]

theorem get_safe_thresholds_min (hist : List VideoInfo) (m : Metric)
    (v : ℚ) (vs : List ℚ)
    (h : hist.filterMap (fun f => getMetric f m) = v :: vs) :
    get_safe_thresholds hist m = listMin v vs * (4 / 5) := by
  unfold get_safe_thresholds
  split
  · rename_i hemp
    rw [List.isEmpty_iff] at hemp
    rw [hemp] at h
    simp at h
  · rw [h]

/-! ### Helper lemmas about the retry loop -/

theorem retryLoopF_alarm (info : VideoInfo) (env : ℕ → AttemptEnv) (fuel : ℕ) :
    ∀ (i : ℕ) (scale : ℚ) (isOrig : Bool),
      (retryLoopF info env fuel i scale isOrig).alarmArmed = false := by
  induction fuel with
  | zero => intro i scale isOrig; rfl
  | succ fuel ih =>
    intro i scale isOrig
    simp only [retryLoopF]
    repeat' split
    all_goals simp [finallyDisarm, ih]

theorem ceil_ten_ge_three (s : ℚ) (hs : MIN_SCALE ≤ s) : 3 ≤ ⌈s * 10⌉ := by
  by_contra hc
  push_neg at hc
  have h2 : (⌈s * 10⌉ : ℤ) ≤ 2 := by omega
  have h3 : s * 10 ≤ ((2 : ℤ) : ℚ) := Int.ceil_le.mp h2
  rw [MIN_SCALE] at hs
  push_cast at h3
  linarith

theorem ceil_scale_step (s : ℚ) : ⌈(s - SCALE_STEP) * 10⌉ = ⌈s * 10⌉ - 1 := by
  have h : (s - SCALE_STEP) * 10 = s * 10 - ((1 : ℤ) : ℚ) := by
    rw [SCALE_STEP]
    push_cast
    ring
  rw [h, Int.ceil_sub_int]

theorem retryLoopF_scales (info : VideoInfo) (env : ℕ → AttemptEnv) (fuel : ℕ) :
    ∀ (i : ℕ) (scale : ℚ) (isOrig : Bool),
      (∀ x ∈ (retryLoopF info env fuel i scale isOrig).attempts,
        MIN_SCALE ≤ x.scale ∧ x.scale ≤ scale) ∧
      List.Chain' (fun a b => b.scale = a.scale - SCALE_STEP)
        (retryLoopF info env fuel i scale isOrig).attempts ∧
      (∀ a, (retryLoopF info env fuel i scale isOrig).attempts.head? = some a →
        a.scale = scale) ∧
      (retryLoopF info env fuel i scale isOrig).attempts.length ≤
        (⌈scale * 10⌉ - 2).toNat := by
  induction fuel with
  | zero =>
    intro i scale isOrig
    simp [retryLoopF]
  | succ fuel ih =>
    intro i scale isOrig
    simp only [retryLoopF]
    by_cases hg : scale < MIN_SCALE
    · simp [hg]
    · have hmin : MIN_SCALE ≤ scale := le_of_not_lt hg
      have hN : 3 ≤ ⌈scale * 10⌉ := ceil_ten_ge_three scale hmin
      have hone : 1 ≤ (⌈scale * 10⌉ - 2).toNat := by omega
      simp only [if_neg hg]
      split
      · simp [finallyDisarm, hmin, hone]
      · split
        · simp [finallyDisarm, hmin, hone]
        · split
          · simp [finallyDisarm, hmin, hone]
          · split
            · simp [finallyDisarm, hmin, hone]
            · simp [finallyDisarm, hmin, hone]
            · simp [finallyDisarm, hmin, hone]
            · by_cases hs2 : scale - SCALE_STEP < MIN_SCALE
              · simp only [if_pos hs2]
                simp [finallyDisarm, hmin, hone]
              · simp only [if_neg hs2]
                split
                · simp [finallyDisarm, hmin, hone]
                · obtain ⟨ihmem, ihchain, ihhead, ihlen⟩ :=
                    ih (i + 1) (scale - SCALE_STEP) false
                  have hstep : scale - SCALE_STEP ≤ scale := by
                    rw [SCALE_STEP]
                    linarith
                  refine ⟨?_, ?_, ?_, ?_⟩
                  · intro x hx
                    rcases List.mem_cons.mp hx with hx | hx
                    · rw [hx]
                      exact ⟨hmin, le_refl scale⟩
                    · obtain ⟨ha, hb⟩ := ihmem x hx
                      exact ⟨ha, le_trans hb hstep⟩
                  · refine List.chain'_cons'.mpr ⟨?_, ihchain⟩
                    intro b hb
                    have := ihhead b hb
                    simp [this]
                  · intro a ha
                    simp only [List.head?_cons, Option.some.injEq] at ha
                    rw [← ha]
                  · simp only [List.length_cons]
                    have hceil := ceil_scale_step scale
                    have : (retryLoopF info env fuel (i + 1) (scale - SCALE_STEP)
                        false).attempts.length ≤ (⌈scale * 10⌉ - 3).toNat := by
                      rw [hceil] at ihlen
                      convert ihlen using 2
                      omega
                    omega

theorem retryLoopF_recorded_of_lt_one (info : VideoInfo) (env : ℕ → AttemptEnv)
    (fuel : ℕ) : ∀ (i : ℕ) (scale : ℚ) (isOrig : Bool), scale < 1 →
      (retryLoopF info env fuel i scale isOrig).recorded = [] := by
  induction fuel with
  | zero => intro i scale isOrig _; rfl
  | succ fuel ih =>
    intro i scale isOrig hlt
    have hne : ¬ scale = 1 := ne_of_lt hlt
    have hlt2 : scale - SCALE_STEP < 1 := by
      rw [SCALE_STEP]
      linarith
    simp only [retryLoopF]
    repeat' split
    all_goals simp [finallyDisarm, hne, ih _ _ false hlt2]

theorem retryLoopF_recorded_cases (info : VideoInfo) (env : ℕ → AttemptEnv)
    (fuel : ℕ) : ∀ (i : ℕ) (scale : ℚ) (isOrig : Bool),
      (retryLoopF info env fuel i scale isOrig).recorded = [] ∨
      (retryLoopF info env fuel i scale isOrig).recorded = [info] := by
  induction fuel with
  | zero => intro i scale isOrig; exact Or.inl rfl
  | succ fuel ih =>
    intro i scale isOrig
    simp only [retryLoopF]
    by_cases hone : scale = 1
    · subst hone
      have hrest : (retryLoopF info env fuel (i + 1) (1 - SCALE_STEP)
          false).recorded = [] := by
        apply retryLoopF_recorded_of_lt_one
        rw [SCALE_STEP]
        norm_num
      repeat' split
      all_goals simp [finallyDisarm, hrest]
    · have hrec := ih (i + 1) (scale - SCALE_STEP) false
      repeat' split
      all_goals simp [finallyDisarm, hone]
      exact hrec

theorem retryLoopF_recorded_iff (info : VideoInfo) (env : ℕ → AttemptEnv)
    (fuel : ℕ) : ∀ (i : ℕ) (scale : ℚ) (isOrig : Bool),
      ((retryLoopF info env fuel i scale isOrig).recorded ≠ [] ↔
        ∃ a ∈ (retryLoopF info env fuel i scale isOrig).attempts,
          a.scale = 1 ∧ a.kind = .oom) := by
  induction fuel with
  | zero =>
    intro i scale isOrig
    simp [retryLoopF]
  | succ fuel ih =>
    intro i scale isOrig
    simp only [retryLoopF]
    by_cases hg : scale < MIN_SCALE
    · simp [hg]
    · simp only [if_neg hg]
      split
      · simp [finallyDisarm]
      · split
        · simp [finallyDisarm]
        · split
          · simp [finallyDisarm]
          · split
            · simp [finallyDisarm]
            · simp [finallyDisarm]
            · simp [finallyDisarm]
            · by_cases hone : scale = 1
              · subst hone
                have hrest0 : (retryLoopF info env fuel (i + 1) (1 - SCALE_STEP)
                    false).recorded = [] := by
                  apply retryLoopF_recorded_of_lt_one
                  rw [SCALE_STEP]
                  norm_num
                repeat' split
                all_goals simp_all [finallyDisarm, hrest0, SCALE_STEP, MIN_SCALE]
              · have ihx := ih (i + 1) (scale - SCALE_STEP) false
                by_cases hs2 : scale - SCALE_STEP < MIN_SCALE
                · simp [hs2, finallyDisarm, hone]
                · simp only [if_neg hs2]
                  split
                  · simp [finallyDisarm, hone]
                  · simp only [if_neg hone, if_false, List.nil_append]
                    constructor
                    · intro h
                      obtain ⟨a, ha, h1, h2⟩ := ihx.mp h
                      exact ⟨a, List.mem_cons.mpr (Or.inr ha), h1, h2⟩
                    · rintro ⟨a, ha, h1, h2⟩
                      rcases List.mem_cons.mp ha with ha | ha
                      · rw [ha] at h1
                        exact absurd h1 hone
                      · exact ihx.mpr ⟨a, ha, h1, h2⟩

theorem retryLoopF_prefix_oom (info : VideoInfo) (env : ℕ → AttemptEnv)
    (fuel : ℕ) : ∀ (i : ℕ) (scale : ℚ) (isOrig : Bool) (j : ℕ),
      j + 1 < (retryLoopF info env fuel i scale isOrig).attempts.length →
      ∃ a, (retryLoopF info env fuel i scale isOrig).attempts.get? j = some a ∧
        a.kind = .oom := by
  induction fuel with
  | zero =>
    intro i scale isOrig j hj
    simp [retryLoopF] at hj
  | succ fuel ih =>
    intro i scale isOrig j hj
    by_cases hg : scale < MIN_SCALE
    · simp [retryLoopF, hg] at hj
    · by_cases hpre : scale < 1 ∧ isOrig = true ∧ (env i).preDownscaleOk = false
      · simp [retryLoopF, hg, hpre, finallyDisarm] at hj
      · cases hfr : (env i).frames with
        | none => simp [retryLoopF, hg, hpre, hfr, finallyDisarm] at hj
        | some n =>
          by_cases hn : n < 2
          · simp [retryLoopF, hg, hpre, hfr, hn, finallyDisarm] at hj
          · cases hw : (env i).worker with
            | success c =>
              simp [retryLoopF, hg, hpre, hfr, hn, hw, finallyDisarm] at hj
            | timeout =>
              simp [retryLoopF, hg, hpre, hfr, hn, hw, finallyDisarm] at hj
            | otherError =>
              simp [retryLoopF, hg, hpre, hfr, hn, hw, finallyDisarm] at hj
            | oom =>
              by_cases hs2 : scale - SCALE_STEP < MIN_SCALE
              · simp [retryLoopF, hg, hpre, hfr, hn, hw, hs2, finallyDisarm] at hj
              · by_cases hds : (env i).retryDownscaleOk = false
                · simp [retryLoopF, hg, hpre, hfr, hn, hw, hs2, hds,
                    finallyDisarm] at hj
                · simp only [retryLoopF, if_neg hg, if_neg hpre, hfr, if_neg hn,
                    hw, if_neg hs2, if_neg hds, List.length_cons] at hj ⊢
                  cases j with
                  | zero => exact ⟨⟨scale, true, .oom⟩, rfl, rfl⟩
                  | succ j =>
                    simp only [List.get?_cons_succ]
                    exact ih (i + 1) (scale - SCALE_STEP) false j (by omega)

theorem retryLoopF_timeout_result (info : VideoInfo) (env : ℕ → AttemptEnv)
    (fuel : ℕ) : ∀ (i : ℕ) (scale : ℚ) (isOrig : Bool),
      (∃ a ∈ (retryLoopF info env fuel i scale isOrig).attempts,
        a.kind = .timeout) →
      (retryLoopF info env fuel i scale isOrig).result = some "TIMEOUT" := by
  induction fuel with
  | zero =>
    intro i scale isOrig h
    simp [retryLoopF] at h
  | succ fuel ih =>
    intro i scale isOrig h
    by_cases hg : scale < MIN_SCALE
    · simp [retryLoopF, hg] at h
    · by_cases hpre : scale < 1 ∧ isOrig = true ∧ (env i).preDownscaleOk = false
      · simp [retryLoopF, hg, hpre, finallyDisarm] at h
      · cases hfr : (env i).frames with
        | none => simp [retryLoopF, hg, hpre, hfr, finallyDisarm] at h
        | some n =>
          by_cases hn : n < 2
          · simp [retryLoopF, hg, hpre, hfr, hn, finallyDisarm] at h
          · cases hw : (env i).worker with
            | success c =>
              simp [retryLoopF, hg, hpre, hfr, hn, hw, finallyDisarm] at h
            | timeout =>
              simp [retryLoopF, hg, hpre, hfr, hn, hw, finallyDisarm]
            | otherError =>
              simp [retryLoopF, hg, hpre, hfr, hn, hw, finallyDisarm] at h
            | oom =>
              by_cases hs2 : scale - SCALE_STEP < MIN_SCALE
              · simp [retryLoopF, hg, hpre, hfr, hn, hw, hs2, finallyDisarm] at h
              · by_cases hds : (env i).retryDownscaleOk = false
                · simp [retryLoopF, hg, hpre, hfr, hn, hw, hs2, hds,
                    finallyDisarm] at h
                · simp only [retryLoopF, if_neg hg, if_neg hpre, hfr, if_neg hn,
                    hw, if_neg hs2, if_neg hds] at h ⊢
                  obtain ⟨a, ha, hk⟩ := h
                  rcases List.mem_cons.mp ha with ha | ha
                  · rw [ha] at hk
                    simp at hk
                  · exact ih (i + 1) (scale - SCALE_STEP) false ⟨a, ha, hk⟩

theorem retryLoopF_first_frames_bad (info : VideoInfo) (env : ℕ → AttemptEnv)
    (fuel : ℕ) (i : ℕ) (scale : ℚ) (isOrig : Bool)
    (hg : ¬ scale < MIN_SCALE)
    (hf : (env i).frames = none ∨ ∃ n, (env i).frames = some n ∧ n < 2) :
    (retryLoopF info env (fuel + 1) i scale isOrig).result = none ∧
    (retryLoopF info env (fuel + 1) i scale isOrig).workerCalls = 0 ∧
    (retryLoopF info env (fuel + 1) i scale isOrig).attempts.length ≤ 1 ∧
    (retryLoopF info env (fuel + 1) i scale isOrig).recorded = [] := by
  by_cases hpre : scale < 1 ∧ isOrig = true ∧ (env i).preDownscaleOk = false
  · simp [retryLoopF, hg, hpre, finallyDisarm]
  · rcases hf with hf | ⟨n, hf, hn⟩
    · simp [retryLoopF, hg, hpre, hf, finallyDisarm]
    · simp [retryLoopF, hg, hpre, hf, hn, finallyDisarm]

theorem retryLoopF_first_success (info : VideoInfo) (env : ℕ → AttemptEnv)
    (fuel : ℕ) (i : ℕ) (scale : ℚ) (isOrig : Bool) (n : ℕ) (c : String)
    (hg : ¬ scale < MIN_SCALE)
    (hpre : ¬ (scale < 1 ∧ isOrig = true ∧ (env i).preDownscaleOk = false))
    (hfr : (env i).frames = some n) (hn : ¬ n < 2)
    (hw : (env i).worker = .success c) :
    retryLoopF info env (fuel + 1) i scale isOrig =
      ⟨some (pyStrip c), [⟨scale, true, .workerSuccess⟩], [], 1, false⟩ := by
  simp [retryLoopF, hg, hpre, hfr, hn, hw, finallyDisarm]

theorem retryLoopF_first_timeout (info : VideoInfo) (env : ℕ → AttemptEnv)
    (fuel : ℕ) (i : ℕ) (scale : ℚ) (isOrig : Bool) (n : ℕ)
    (hg : ¬ scale < MIN_SCALE)
    (hpre : ¬ (scale < 1 ∧ isOrig = true ∧ (env i).preDownscaleOk = false))
    (hfr : (env i).frames = some n) (hn : ¬ n < 2)
    (hw : (env i).worker = .timeout) :
    retryLoopF info env (fuel + 1) i scale isOrig =
      ⟨some "TIMEOUT", [⟨scale, true, .timeout⟩], [], 1, false⟩ := by
  simp [retryLoopF, hg, hpre, hfr, hn, hw, finallyDisarm]

theorem scale_lt_min_of_toNat_zero (s : ℚ) (h : (⌈s * 10⌉).toNat = 0) :
    s < MIN_SCALE := by
  have h0 : ⌈s * 10⌉ ≤ 0 := Int.toNat_eq_zero.mp h
  have h1 : s * 10 ≤ ((0 : ℤ) : ℚ) := Int.ceil_le.mp h0
  push_cast at h1
  rw [MIN_SCALE]
  linarith

theorem retryLoopF_fuel_irrel (info : VideoInfo) (env : ℕ → AttemptEnv) :
    ∀ (fuel1 fuel2 i : ℕ) (scale : ℚ) (isOrig : Bool),
      (⌈scale * 10⌉).toNat ≤ fuel1 → (⌈scale * 10⌉).toNat ≤ fuel2 →
      retryLoopF info env fuel1 i scale isOrig =
        retryLoopF info env fuel2 i scale isOrig := by
  intro fuel1
  induction fuel1 with
  | zero =>
    intro fuel2 i scale isOrig h1 h2
    have hlt : scale < MIN_SCALE :=
      scale_lt_min_of_toNat_zero scale (Nat.le_zero.mp h1)
    cases fuel2 with
    | zero => rfl
    | succ fuel2 => simp [retryLoopF, hlt]
  | succ fuel1 ih =>
    intro fuel2 i scale isOrig h1 h2
    cases fuel2 with
    | zero =>
      have hlt : scale < MIN_SCALE :=
        scale_lt_min_of_toNat_zero scale (Nat.le_zero.mp h2)
      simp [retryLoopF, hlt]
    | succ fuel2 =>
      by_cases hg : scale < MIN_SCALE
      · simp [retryLoopF, hg]
      · have hN : 3 ≤ ⌈scale * 10⌉ := ceil_ten_ge_three scale (le_of_not_lt hg)
        have hrec : (⌈(scale - SCALE_STEP) * 10⌉).toNat ≤ fuel1 ∧
            (⌈(scale - SCALE_STEP) * 10⌉).toNat ≤ fuel2 := by
          rw [ceil_scale_step]
          omega
        by_cases hpre : scale < 1 ∧ isOrig = true ∧ (env i).preDownscaleOk = false
        · simp [retryLoopF, hg, hpre]
        · cases hfr : (env i).frames with
          | none => simp [retryLoopF, hg, hpre, hfr]
          | some n =>
            by_cases hn : n < 2
            · simp [retryLoopF, hg, hpre, hfr, hn]
            · cases hw : (env i).worker with
              | success c => simp [retryLoopF, hg, hpre, hfr, hn, hw]
              | timeout => simp [retryLoopF, hg, hpre, hfr, hn, hw]
              | otherError => simp [retryLoopF, hg, hpre, hfr, hn, hw]
              | oom =>
                by_cases hs2 : scale - SCALE_STEP < MIN_SCALE
                · simp [retryLoopF, hg, hpre, hfr, hn, hw, hs2]
                · by_cases hds : (env i).retryDownscaleOk = false
                  · simp [retryLoopF, hg, hpre, hfr, hn, hw, hs2, hds]
                  · simp only [retryLoopF, if_neg hg, if_neg hpre, hfr,
                      if_neg hn, hw, if_neg hs2, if_neg hds]
                    rw [ih fuel2 (i + 1) (scale - SCALE_STEP) false
                      hrec.1 hrec.2]

/-! ### Helper lemmas about the queue driver -/

theorem driverStep_skip (fmt : Fmt) (done : List String)
    (envs : Item → ℕ → AttemptEnv) (st : DriverState) (v : Item)
    (h : v.path ∈ done) :
    driverStep fmt done envs st v =
      (st, ⟨v.path, false, 0, .skipped, st.timeoutCount, st.processedCount,
        false⟩) := by
  simp [driverStep, h]

theorem driverStep_timeout (fmt : Fmt) (done : List String)
    (envs : Item → ℕ → AttemptEnv) (st : DriverState) (v : Item)
    (h : v.path ∉ done)
    (hr : (process_single_video_with_prediction st.hist v.info (envs v)).result =
      some "TIMEOUT") :
    driverStep fmt done envs st v =
      (⟨st.sink,
        st.hist ++ (process_single_video_with_prediction st.hist v.info
          (envs v)).recorded,
        st.timeoutCount + 1,
        if (st.timeoutCount + 1) % 3 = 0 then 0 else st.processedCount,
        if (st.timeoutCount + 1) % 3 = 0 then st.workerGen + 1 else st.workerGen,
        st.movedTimeout ++ [v.path], st.movedBad⟩,
      ⟨v.path, true,
        (process_single_video_with_prediction st.hist v.info (envs v)).workerCalls,
        .timedOut, st.timeoutCount + 1,
        if (st.timeoutCount + 1) % 3 = 0 then 0 else st.processedCount,
        decide ((st.timeoutCount + 1) % 3 = 0)⟩) := by
  simp [driverStep, h, hr]

theorem driverStep_failed (fmt : Fmt) (done : List String)
    (envs : Item → ℕ → AttemptEnv) (st : DriverState) (v : Item)
    (h : v.path ∉ done)
    (hr : (process_single_video_with_prediction st.hist v.info (envs v)).result =
      none) :
    driverStep fmt done envs st v =
      (⟨st.sink,
        st.hist ++ (process_single_video_with_prediction st.hist v.info
          (envs v)).recorded,
        st.timeoutCount, st.processedCount, st.workerGen,
        st.movedTimeout, st.movedBad ++ [v.path]⟩,
      ⟨v.path, true,
        (process_single_video_with_prediction st.hist v.info (envs v)).workerCalls,
        .failedOut, st.timeoutCount, st.processedCount, false⟩) := by
  simp [driverStep, h, hr]

theorem driverStep_success (fmt : Fmt) (done : List String)
    (envs : Item → ℕ → AttemptEnv) (st : DriverState) (v : Item) (s : String)
    (h : v.path ∉ done)
    (hr : (process_single_video_with_prediction st.hist v.info (envs v)).result =
      some s)
    (hs : s ≠ "TIMEOUT") :
    driverStep fmt done envs st v =
      (⟨itemKey fmt v :: st.sink,
        st.hist ++ (process_single_video_with_prediction st.hist v.info
          (envs v)).recorded,
        st.timeoutCount, st.processedCount + 1,
        if (st.processedCount + 1) % 300 = 0 then st.workerGen + 1
        else st.workerGen,
        st.movedTimeout, st.movedBad⟩,
      ⟨v.path, true,
        (process_single_video_with_prediction st.hist v.info (envs v)).workerCalls,
        .succeeded, st.timeoutCount, st.processedCount + 1,
        decide ((st.processedCount + 1) % 300 = 0)⟩) := by
  simp [driverStep, h, hr, hs]

theorem driverStep_disposition (fmt : Fmt) (done : List String)
    (envs : Item → ℕ → AttemptEnv) (st : DriverState) (v : Item)
    (h : v.path ∉ done) :
    v.path ∈ (driverStep fmt done envs st v).1.movedTimeout ∨
    v.path ∈ (driverStep fmt done envs st v).1.movedBad ∨
    itemKey fmt v ∈ (driverStep fmt done envs st v).1.sink := by
  rcases hres : (process_single_video_with_prediction st.hist v.info
      (envs v)).result with _ | s
  · rw [driverStep_failed fmt done envs st v h hres]
    simp
  · by_cases hs : s = "TIMEOUT"
    · subst hs
      rw [driverStep_timeout fmt done envs st v h hres]
      simp
    · rw [driverStep_success fmt done envs st v s h hres hs]
      simp

theorem driverStep_sink_mono (fmt : Fmt) (done : List String)
    (envs : Item → ℕ → AttemptEnv) (st : DriverState) (v : Item) (x : String)
    (hx : x ∈ st.sink) : x ∈ (driverStep fmt done envs st v).1.sink := by
  by_cases h : v.path ∈ done
  · rw [driverStep_skip fmt done envs st v h]
    exact hx
  · rcases hres : (process_single_video_with_prediction st.hist v.info
        (envs v)).result with _ | s
    · rw [driverStep_failed fmt done envs st v h hres]
      exact hx
    · by_cases hs : s = "TIMEOUT"
      · subst hs
        rw [driverStep_timeout fmt done envs st v h hres]
        exact hx
      · rw [driverStep_success fmt done envs st v s h hres hs]
        exact List.mem_cons.mpr (Or.inr hx)

theorem driverStep_movedT_mono (fmt : Fmt) (done : List String)
    (envs : Item → ℕ → AttemptEnv) (st : DriverState) (v : Item) (x : String)
    (hx : x ∈ st.movedTimeout) :
    x ∈ (driverStep fmt done envs st v).1.movedTimeout := by
  by_cases h : v.path ∈ done
  · rw [driverStep_skip fmt done envs st v h]
    exact hx
  · rcases hres : (process_single_video_with_prediction st.hist v.info
        (envs v)).result with _ | s
    · rw [driverStep_failed fmt done envs st v h hres]
      exact hx
    · by_cases hs : s = "TIMEOUT"
      · subst hs
        rw [driverStep_timeout fmt done envs st v h hres]
        exact List.mem_append.mpr (Or.inl hx)
      · rw [driverStep_success fmt done envs st v s h hres hs]
        exact hx

theorem driverStep_movedB_mono (fmt : Fmt) (done : List String)
    (envs : Item → ℕ → AttemptEnv) (st : DriverState) (v : Item) (x : String)
    (hx : x ∈ st.movedBad) :
    x ∈ (driverStep fmt done envs st v).1.movedBad := by
  by_cases h : v.path ∈ done
  · rw [driverStep_skip fmt done envs st v h]
    exact hx
  · rcases hres : (process_single_video_with_prediction st.hist v.info
        (envs v)).result with _ | s
    · rw [driverStep_failed fmt done envs st v h hres]
      exact List.mem_append.mpr (Or.inl hx)
    · by_cases hs : s = "TIMEOUT"
      · subst hs
        rw [driverStep_timeout fmt done envs st v h hres]
        exact hx
      · rw [driverStep_success fmt done envs st v s h hres hs]
        exact hx

theorem runFrom_sink_mono (fmt : Fmt) (done : List String)
    (envs : Item → ℕ → AttemptEnv) :
    ∀ (vs : List Item) (st : DriverState) (x : String), x ∈ st.sink →
      x ∈ (runFrom fmt done envs st vs).1.sink := by
  intro vs
  induction vs with
  | nil => intro st x hx; exact hx
  | cons w vs ih =>
    intro st x hx
    exact ih (driverStep fmt done envs st w).1
      x (driverStep_sink_mono fmt done envs st w x hx)

theorem runFrom_movedT_mono (fmt : Fmt) (done : List String)
    (envs : Item → ℕ → AttemptEnv) :
    ∀ (vs : List Item) (st : DriverState) (x : String), x ∈ st.movedTimeout →
      x ∈ (runFrom fmt done envs st vs).1.movedTimeout := by
  intro vs
  induction vs with
  | nil => intro st x hx; exact hx
  | cons w vs ih =>
    intro st x hx
    exact ih (driverStep fmt done envs st w).1
      x (driverStep_movedT_mono fmt done envs st w x hx)

theorem runFrom_movedB_mono (fmt : Fmt) (done : List String)
    (envs : Item → ℕ → AttemptEnv) :
    ∀ (vs : List Item) (st : DriverState) (x : String), x ∈ st.movedBad →
      x ∈ (runFrom fmt done envs st vs).1.movedBad := by
  intro vs
  induction vs with
  | nil => intro st x hx; exact hx
  | cons w vs ih =>
    intro st x hx
    exact ih (driverStep fmt done envs st w).1
      x (driverStep_movedB_mono fmt done envs st w x hx)

theorem runFrom_disposition (fmt : Fmt) (done : List String)
    (envs : Item → ℕ → AttemptEnv) :
    ∀ (vs : List Item) (st : DriverState) (v : Item), v ∈ vs →
      v.path ∈ done ∨
      v.path ∈ (runFrom fmt done envs st vs).1.movedTimeout ∨
      v.path ∈ (runFrom fmt done envs st vs).1.movedBad ∨
      itemKey fmt v ∈ (runFrom fmt done envs st vs).1.sink := by
  intro vs
  induction vs with
  | nil => intro st v hv; simp at hv
  | cons w vs ih =>
    intro st v hv
    rcases List.mem_cons.mp hv with hv | hv
    · subst hv
      by_cases hdone : v.path ∈ done
      · exact Or.inl hdone
      · rcases driverStep_disposition fmt done envs st v hdone with h | h | h
        · exact Or.inr (Or.inl (runFrom_movedT_mono fmt done envs vs _ _ h))
        · exact Or.inr (Or.inr (Or.inl
            (runFrom_movedB_mono fmt done envs vs _ _ h)))
        · exact Or.inr (Or.inr (Or.inr
            (runFrom_sink_mono fmt done envs vs _ _ h)))
    · exact ih (driverStep fmt done envs st w).1 v hv

theorem runFrom_all_skip (fmt : Fmt) (done : List String)
    (envs : Item → ℕ → AttemptEnv) :
    ∀ (vs : List Item) (st : DriverState), (∀ v ∈ vs, v.path ∈ done) →
      (runFrom fmt done envs st vs).1 = st ∧
      ∀ lg ∈ (runFrom fmt done envs st vs).2,
        lg.outcome = .skipped ∧ lg.invoked = false ∧ lg.workerCalls = 0 := by
  intro vs
  induction vs with
  | nil => intro st _; exact ⟨rfl, by simp [runFrom]⟩
  | cons w vs ih =>
    intro st hall
    have hw := hall w (List.mem_cons.mpr (Or.inl rfl))
    have hstep := driverStep_skip fmt done envs st w hw
    have hrest := ih st (fun v hv => hall v (List.mem_cons.mpr (Or.inr hv)))
    constructor
    · show (runFrom fmt done envs (driverStep fmt done envs st w).1 vs).1 = st
      rw [hstep]
      exact hrest.1
    · intro lg hlg
      have : (runFrom fmt done envs st (w :: vs)).2 =
          (driverStep fmt done envs st w).2 ::
          (runFrom fmt done envs (driverStep fmt done envs st w).1 vs).2 := rfl
      rw [this, hstep] at hlg
      rcases List.mem_cons.mp hlg with hlg | hlg
      · rw [hlg]
        exact ⟨rfl, rfl, rfl⟩
      · exact hrest.2 lg hlg

theorem item_path_inj (videos : List Item) (v w : Item)
    (hnd : (videos.map Item.path).Nodup) (hv : v ∈ videos) (hw : w ∈ videos)
    (h : v.path = w.path) : v = w := by
  exact List.inj_on_of_nodup_map hnd hv hw h

theorem doneSet_key (fmt : Fmt) (sink : List String) (videos : List Item)
    (v : Item) (hnd : (videos.map Item.path).Nodup) (hv : v ∈ videos)
    (h : v.path ∈ doneSet fmt sink videos) : itemKey fmt v ∈ sink := by
  cases fmt with
  | txt =>
    simp only [doneSet, List.mem_map] at h
    obtain ⟨w, hw, hpath⟩ := h
    have hw2 := List.mem_filter.mp hw
    have : w = v := item_path_inj videos w v hnd hw2.1 hv hpath
    subst this
    simpa [itemKey] using of_decide_eq_true hw2.2
  | jsonl => exact h

theorem doneSet_of_key (fmt : Fmt) (sink : List String) (videos : List Item)
    (v : Item) (hv : v ∈ videos) (h : itemKey fmt v ∈ sink) :
    v.path ∈ doneSet fmt sink videos := by
  cases fmt with
  | txt =>
    simp only [doneSet, List.mem_map]
    refine ⟨v, List.mem_filter.mpr ⟨hv, ?_⟩, rfl⟩
    exact decide_eq_true h
  | jsonl => exact h

theorem predict_suggested_min (hist : List VideoInfo) (info : VideoInfo) :
    MIN_SCALE ≤ (predict_oom_risk hist info).suggested_scale := by
  unfold predict_oom_risk
  cases h : riskList hist info with
  | nil => norm_num [MIN_SCALE]
  | cons r rs =>
    simp only
    split_ifs <;> norm_num [MIN_SCALE]

theorem startScale_min (hist : List VideoInfo) (info : VideoInfo) :
    ¬ (if (predict_oom_risk hist info).is_risky then
        (predict_oom_risk hist info).suggested_scale else 1) < MIN_SCALE := by
  rw [not_lt]
  split
  · exact predict_suggested_min hist info
  · norm_num [MIN_SCALE]

theorem startScale_le_one (hist : List VideoInfo) (info : VideoInfo) :
    (if (predict_oom_risk hist info).is_risky then
      (predict_oom_risk hist info).suggested_scale else 1) ≤ 1 := by
  split
  · exact predict_suggested_le_one hist info
  · norm_num

theorem driverStep_hist (fmt : Fmt) (done : List String)
    (envs : Item → ℕ → AttemptEnv) (st : DriverState) (v : Item)
    (h : v.path ∉ done) :
    (driverStep fmt done envs st v).1.hist =
      st.hist ++ (process_single_video_with_prediction st.hist v.info
        (envs v)).recorded := by
  rcases hres : (process_single_video_with_prediction st.hist v.info
      (envs v)).result with _ | s
  · rw [driverStep_failed fmt done envs st v h hres]
  · by_cases hs : s = "TIMEOUT"
    · subst hs
      rw [driverStep_timeout fmt done envs st v h hres]
    · rw [driverStep_success fmt done envs st v s h hres hs]

theorem runDriver_def (fmt : Fmt) (videos : List Item)
    (envs : Item → ℕ → AttemptEnv) (sink0 : List String)
    (hist0 : List VideoInfo) :
    runDriver fmt videos envs sink0 hist0 =
      runFrom fmt (doneSet fmt sink0 videos) envs
        ⟨sink0, hist0, 0, 0, 0, [], []⟩ videos := rfl

/-! ### Claim theorems -/

/-- C9: the watchdog timer armed before each blocking worker invocation is
disarmed on every exit path of
`process_single_video_with_prediction` — normal return, timeout, resource
exhaustion, any other exception — so after the attempt function returns no
armed timer remains (the `finally: signal.alarm(0)` clause runs on every exit
of the loop body). -/
theorem C9_watchdog_disarmed (hist : List VideoInfo) (info : VideoInfo)
    (env : ℕ → AttemptEnv) :
    (process_single_video_with_prediction hist info env).alarmArmed = false := by
  unfold process_single_video_with_prediction
  exact retryLoopF_alarm info env 12 0 _ true

/-- C9 witness: at a concrete successful run the returned state has the
watchdog disarmed. -/
theorem C9_watchdog_disarmed_witness :
    (process_single_video_with_prediction [] {} envSuccess).alarmArmed = false :=
  C9_watchdog_disarmed [] {} envSuccess

/-- C3: the scale factors attempted by the retry controller form a strictly
decreasing sequence (each retry steps down by exactly `SCALE_STEP`), every
attempted scale stays at or above `MIN_SCALE`, and the number of attempts is
bounded by `⌈(1 − MIN_SCALE)/SCALE_STEP⌉ + 1 = 9`; once the next decrement
would pass the floor the controller gives up instead of attempting again. -/
theorem C3_scale_sequence (hist : List VideoInfo) (info : VideoInfo)
    (env : ℕ → AttemptEnv) :
    List.Chain' (fun a b => b < a)
      ((process_single_video_with_prediction hist info env).attempts.map
        AttemptRec.scale) ∧
    (∀ s ∈ (process_single_video_with_prediction hist info env).attempts.map
        AttemptRec.scale, MIN_SCALE ≤ s) ∧
    ((process_single_video_with_prediction hist info env).attempts.map
        AttemptRec.scale).length ≤
      (⌈(1 - MIN_SCALE) / SCALE_STEP⌉ + 1).toNat := by
  unfold process_single_video_with_prediction
  obtain ⟨hmem, hchain, hhead, hlen⟩ := retryLoopF_scales info env 12 0
    (if (predict_oom_risk hist info).is_risky then
      (predict_oom_risk hist info).suggested_scale else 1) true
  refine ⟨?_, ?_, ?_⟩
  · rw [List.chain'_map]
    refine hchain.imp ?_
    intro a b hab
    rw [hab, SCALE_STEP]
    linarith
  · intro s hs
    obtain ⟨a, ha, rfl⟩ := List.mem_map.mp hs
    exact (hmem a ha).1
  · rw [List.length_map]
    have hle := startScale_le_one hist info
    have hceil : ⌈(if (predict_oom_risk hist info).is_risky then
        (predict_oom_risk hist info).suggested_scale else 1) * 10⌉ ≤ 10 := by
      apply Int.ceil_le.mpr
      push_cast
      linarith
    have hnine : ⌈(1 - MIN_SCALE) / SCALE_STEP⌉ = 8 := by
      rw [MIN_SCALE, SCALE_STEP, Int.ceil_eq_iff]
      norm_num
    rw [hnine]
    omega

/-- C3 witness: on a run that exhausts the whole downscale ladder the attempt
count stays within the bound. -/
theorem C3_scale_sequence_witness :
    ((process_single_video_with_prediction [] {} envOOM).attempts.map
      AttemptRec.scale).length ≤ (⌈(1 - MIN_SCALE) / SCALE_STEP⌉ + 1).toNat :=
  (C3_scale_sequence [] {} envOOM).2.2

/-- C2: a failure record is appended to the OOM history if and only if a CUDA
OOM outcome occurs at scale exactly 1.0; OOM at any reduced scale (including a
risk-suggested start below 1.0) never appends, at most one record is appended
per item per run, and the queue driver extends the history by exactly the
records of the item it processed. -/
theorem C2_failure_record (hist : List VideoInfo) (info : VideoInfo)
    (env : ℕ → AttemptEnv) :
    ((process_single_video_with_prediction hist info env).recorded = [] ∨
      (process_single_video_with_prediction hist info env).recorded = [info]) ∧
    ((process_single_video_with_prediction hist info env).recorded ≠ [] ↔
      ∃ a ∈ (process_single_video_with_prediction hist info env).attempts,
        a.scale = 1 ∧ a.kind = .oom) ∧
    (∀ (fmt : Fmt) (done : List String) (envs : Item → ℕ → AttemptEnv)
        (st : DriverState) (v : Item), v.path ∉ done →
      (driverStep fmt done envs st v).1.hist =
        st.hist ++ (process_single_video_with_prediction st.hist v.info
          (envs v)).recorded) := by
  refine ⟨?_, ?_, ?_⟩
  · unfold process_single_video_with_prediction
    exact retryLoopF_recorded_cases info env 12 0 _ true
  · unfold process_single_video_with_prediction
    exact retryLoopF_recorded_iff info env 12 0 _ true
  · intro fmt done envs st v h
    exact driverStep_hist fmt done envs st v h

/-- C2 witness: an item that hits OOM at full scale appends a record, namely at
the scale-1.0 OOM attempt. -/
theorem C2_failure_record_witness :
    ∃ a ∈ (process_single_video_with_prediction [] {} envOOM).attempts,
      a.scale = 1 ∧ a.kind = .oom :=
  (C2_failure_record [] {} envOOM).2.1.mp (by decide)

/-- C1 counterexample: with an empty history the derived duration threshold is
30 and an item of duration 100 exceeds it, yet `predict_oom_risk` returns
not-risky with scale 1.0 — the tracked attribute `duration` is never compared,
so the claim as stated (over every tracked attribute) fails. -/
theorem C1_counterexample :
    getD0 infoDur.duration > get_safe_thresholds [] .duration ∧
    predict_oom_risk [] infoDur = ⟨false, 1, .safe⟩ := by
  decide

/-- C1 (amended): over the five attributes the predictor actually compares
(file size, total pixels, width, height, frame count — `duration` receives a
derived threshold but is never consulted), `predict_oom_risk` returns not-risky
with scale 1.0 exactly when none of them exceeds its threshold; otherwise it
is risky, the reason carries an attribute of maximal excess ratio taken from
the risk list, and the suggested scale is 0.5 for ratio > 2.0, 0.7 for
ratio > 1.5, and 0.9 otherwise. -/
theorem C1_risk_assessment (hist : List VideoInfo) (info : VideoInfo) :
    (riskList hist info = [] ↔
      ¬(getD0 info.file_size_mb > get_safe_thresholds hist .file_size_mb) ∧
      ¬(getD0 info.total_pixels > get_safe_thresholds hist .total_pixels) ∧
      ¬(getD0 info.width > get_safe_thresholds hist .width) ∧
      ¬(getD0 info.height > get_safe_thresholds hist .height) ∧
      ¬(getD0 info.frame_count > get_safe_thresholds hist .frame_count)) ∧
    (riskList hist info = [] →
      predict_oom_risk hist info = ⟨false, 1, .safe⟩) ∧
    (riskList hist info ≠ [] →
      (predict_oom_risk hist info).is_risky = true ∧
      ∃ p ∈ riskList hist info,
        (predict_oom_risk hist info).reason = .over p.1 p.2 ∧
        (∀ q ∈ riskList hist info, q.2 ≤ p.2) ∧
        (predict_oom_risk hist info).suggested_scale =
          (if p.2 > 2 then 1 / 2 else if p.2 > 3 / 2 then 7 / 10 else 9 / 10)) := by
  refine ⟨riskList_eq_nil_iff hist info, predict_oom_risk_of_nil hist info, ?_⟩
  intro hne
  cases hr : riskList hist info with
  | nil => exact absurd hr hne
  | cons r rs =>
    rw [predict_oom_risk_of_cons hist info r rs hr]
    refine ⟨rfl, maxByExcess r rs, ?_, rfl, ?_, rfl⟩
    · exact maxByExcess_mem r rs
    · intro q hq
      exact maxByExcess_ge r rs q hq

/-- C1 witness: an item of width 2000 against an empty history (width threshold
1920) is flagged risky by the amended statement. -/
theorem C1_risk_assessment_witness :
    (predict_oom_risk [] infoW2000).is_risky = true :=
  ((C1_risk_assessment [] infoW2000).2.2 (by decide)).1

/-- C4: for each tracked attribute the derived threshold is the minimum value
observed across all failure records times the 0.8 safety margin, or the fixed
conservative default when the history holds no value for the attribute; in
particular a history of exactly one record with width 1000 yields width
threshold 800, and an item of width 900 is flagged risky with a reason citing
width (ratio 900/800 = 9/8). -/
theorem C4_thresholds :
    (∀ (hist : List VideoInfo) (m : Metric),
      (hist.filterMap (fun f => getMetric f m) = [] →
        get_safe_thresholds hist m = defaultThresholds m) ∧
      (∀ (v : ℚ) (vs : List ℚ),
        hist.filterMap (fun f => getMetric f m) = v :: vs →
        ∃ w ∈ v :: vs, (∀ x ∈ v :: vs, w ≤ x) ∧
          get_safe_thresholds hist m = w * (4 / 5))) ∧
    get_safe_thresholds [recW1000] .width = 800 ∧
    (predict_oom_risk [recW1000] infoW900).is_risky = true ∧
    (predict_oom_risk [recW1000] infoW900).reason = .over "width" (9 / 8) := by
  refine ⟨?_, by decide, by decide, by decide⟩
  intro hist m
  refine ⟨get_safe_thresholds_default hist m, ?_⟩
  intro v vs h
  refine ⟨listMin v vs, listMin_mem v vs, ?_, get_safe_thresholds_min hist m v vs h⟩
  intro x hx
  rcases List.mem_cons.mp hx with hx | hx
  · rw [hx]
    exact (listMin_le v vs).1
  · exact (listMin_le v vs).2 x hx

/-- C4 witness: instantiating the general threshold statement on the
single-record history with width 1000 produces the 800 threshold as minimum
times margin. -/
theorem C4_thresholds_witness :
    ∃ w ∈ [(1000 : ℚ)], (∀ x ∈ [(1000 : ℚ)], w ≤ x) ∧
      get_safe_thresholds [recW1000] .width = w * (4 / 5) :=
  (C4_thresholds.1 [recW1000] .width).2 1000 [] (by decide)

/-- C8: an item whose current variant has fewer than 2 usable frames (or whose
frame count cannot be determined) at its first attempt yields a permanent skip:
the attempt returns None before the worker is ever invoked — zero worker
invocations, no retry at any scale — and the queue driver moves the item to
the failure quarantine without touching the output sink. -/
theorem C8_permanent_skip (fmt : Fmt) (done : List String)
    (envs : Item → ℕ → AttemptEnv) (st : DriverState) (v : Item)
    (hdone : v.path ∉ done)
    (hf : (envs v 0).frames = none ∨ ∃ n, (envs v 0).frames = some n ∧ n < 2) :
    (process_single_video_with_prediction st.hist v.info (envs v)).workerCalls
      = 0 ∧
    (process_single_video_with_prediction st.hist v.info (envs v)).result
      = none ∧
    (process_single_video_with_prediction st.hist v.info
      (envs v)).attempts.length ≤ 1 ∧
    (driverStep fmt done envs st v).2.outcome = .failedOut ∧
    (driverStep fmt done envs st v).1.movedBad = st.movedBad ++ [v.path] ∧
    (driverStep fmt done envs st v).1.sink = st.sink := by
  have hg := startScale_min st.hist v.info
  have key := retryLoopF_first_frames_bad v.info (envs v) 11 0
    (if (predict_oom_risk st.hist v.info).is_risky then
      (predict_oom_risk st.hist v.info).suggested_scale else 1) true hg hf
  have hres : (process_single_video_with_prediction st.hist v.info
      (envs v)).result = none := key.1
  rw [driverStep_failed fmt done envs st v hdone hres]
  exact ⟨key.2.1, hres, key.2.2.1, rfl, rfl, rfl⟩

/-- C8 witness: a concrete single-frame item is quarantined with zero worker
invocations. -/
theorem C8_permanent_skip_witness :
    (process_single_video_with_prediction st0.hist itemA.info
      (envsOne itemA)).workerCalls = 0 ∧
    (process_single_video_with_prediction st0.hist itemA.info
      (envsOne itemA)).result = none ∧
    (process_single_video_with_prediction st0.hist itemA.info
      (envsOne itemA)).attempts.length ≤ 1 ∧
    (driverStep .txt [] envsOne st0 itemA).2.outcome = .failedOut ∧
    (driverStep .txt [] envsOne st0 itemA).1.movedBad =
      st0.movedBad ++ [itemA.path] ∧
    (driverStep .txt [] envsOne st0 itemA).1.sink = st0.sink :=
  C8_permanent_skip .txt [] envsOne st0 itemA (by decide)
    (Or.inr ⟨1, by decide, by decide⟩)

/-- C10: the timeout outcome is signalled in-band by the literal string
"TIMEOUT": whenever the attempt returns that exact string the driver counts a
timeout and quarantines the item instead of writing a caption — so a
successful worker caption whose stripped text equals "TIMEOUT" is never
written to the output sink and the item is quarantined as if it had timed
out. -/
theorem C10_inband_timeout (fmt : Fmt) (done : List String)
    (envs : Item → ℕ → AttemptEnv) (st : DriverState) (v : Item)
    (n : ℕ) (c : String)
    (hdone : v.path ∉ done)
    (hfr : (envs v 0).frames = some n) (hn : ¬ n < 2)
    (hpre : (envs v 0).preDownscaleOk = true)
    (hw : (envs v 0).worker = .success c)
    (hc : pyStrip c = "TIMEOUT") :
    (process_single_video_with_prediction st.hist v.info (envs v)).result =
      some "TIMEOUT" ∧
    (driverStep fmt done envs st v).2.outcome = .timedOut ∧
    v.path ∈ (driverStep fmt done envs st v).1.movedTimeout ∧
    (driverStep fmt done envs st v).1.sink = st.sink := by
  have hg := startScale_min st.hist v.info
  have hpre2 : ¬ ((if (predict_oom_risk st.hist v.info).is_risky then
      (predict_oom_risk st.hist v.info).suggested_scale else 1) < 1 ∧
      true = true ∧ (envs v 0).preDownscaleOk = false) := by
    simp [hpre]
  have key := retryLoopF_first_success v.info (envs v) 11 0
    (if (predict_oom_risk st.hist v.info).is_risky then
      (predict_oom_risk st.hist v.info).suggested_scale else 1) true n c
    hg hpre2 hfr hn hw
  have hres : (process_single_video_with_prediction st.hist v.info
      (envs v)).result = some "TIMEOUT" := by
    show (retryLoopF v.info (envs v) 12 0
      (if (predict_oom_risk st.hist v.info).is_risky then
        (predict_oom_risk st.hist v.info).suggested_scale else 1) true).result =
      some "TIMEOUT"
    rw [show (12 : ℕ) = 11 + 1 from rfl, key, hc]
  rw [driverStep_timeout fmt done envs st v hdone hres]
  refine ⟨hres, rfl, ?_, rfl⟩
  exact List.mem_append.mpr (Or.inr (List.mem_cons.mpr (Or.inl rfl)))

/-- C10 witness: a worker caption " TIMEOUT " (stripping to "TIMEOUT") at a
concrete item is routed to the timeout quarantine and the sink is untouched. -/
theorem C10_inband_timeout_witness :
    (process_single_video_with_prediction st0.hist itemA.info
      (envsTT itemA)).result = some "TIMEOUT" ∧
    (driverStep .jsonl [] envsTT st0 itemA).2.outcome = .timedOut ∧
    itemA.path ∈ (driverStep .jsonl [] envsTT st0 itemA).1.movedTimeout ∧
    (driverStep .jsonl [] envsTT st0 itemA).1.sink = st0.sink :=
  C10_inband_timeout .jsonl [] envsTT st0 itemA 2 " TIMEOUT "
    (by decide) (by decide) (by decide) (by decide) (by decide) (by decide)

/-- C6: a Timeout outcome is terminal for the item within the run: every
non-final attempt in a trace is an OOM-retry (so no attempt at any scale
follows a timeout), a trace containing a timeout returns the in-band
"TIMEOUT" result, and on that result the queue driver moves the item to the
timeout quarantine without writing to the output sink. -/
theorem C6_timeout_terminal :
    (∀ (hist : List VideoInfo) (info : VideoInfo) (env : ℕ → AttemptEnv),
      (∀ j : ℕ, j + 1 <
          (process_single_video_with_prediction hist info env).attempts.length →
        ∃ a, (process_single_video_with_prediction hist info
          env).attempts.get? j = some a ∧ a.kind = .oom) ∧
      ((∃ a ∈ (process_single_video_with_prediction hist info env).attempts,
          a.kind = .timeout) →
        (process_single_video_with_prediction hist info env).result =
          some "TIMEOUT")) ∧
    (∀ (fmt : Fmt) (done : List String) (envs : Item → ℕ → AttemptEnv)
        (st : DriverState) (v : Item), v.path ∉ done →
      (process_single_video_with_prediction st.hist v.info (envs v)).result =
        some "TIMEOUT" →
      (driverStep fmt done envs st v).2.outcome = .timedOut ∧
      (driverStep fmt done envs st v).1.movedTimeout =
        st.movedTimeout ++ [v.path] ∧
      (driverStep fmt done envs st v).1.sink = st.sink) := by
  constructor
  · intro hist info env
    constructor
    · intro j hj
      exact retryLoopF_prefix_oom info env 12 0 _ true j hj
    · intro h
      exact retryLoopF_timeout_result info env 12 0 _ true h
  · intro fmt done envs st v hdone hres
    rw [driverStep_timeout fmt done envs st v hdone hres]
    exact ⟨rfl, rfl, rfl⟩

/-- C6 witness: a concrete first-attempt timeout is quarantined by the driver
with the sink untouched. -/
theorem C6_timeout_terminal_witness :
    (driverStep .jsonl [] envsSel st0 itemT).2.outcome = .timedOut ∧
    (driverStep .jsonl [] envsSel st0 itemT).1.movedTimeout =
      st0.movedTimeout ++ [itemT.path] ∧
    (driverStep .jsonl [] envsSel st0 itemT).1.sink = st0.sink :=
  C6_timeout_terminal.2 .jsonl [] envsSel st0 itemT (by decide) (by decide)

/-- C7 (amended): during one driver step the model is reloaded (the log flag is
set and the worker generation bumped) exactly when the step is a timeout whose
cumulative timeout count reaches a multiple of 3, or a success at which the
driver's success counter reaches a multiple of 300; a timeout-triggered reload
also resets the success counter to zero, so the two triggers are not
independent — the success counter is successes since the last
timeout-triggered reload, not cumulative successes. -/
theorem C7_reload_policy (fmt : Fmt) (done : List String)
    (envs : Item → ℕ → AttemptEnv) (st : DriverState) (v : Item) :
    ((driverStep fmt done envs st v).2.reloaded = true ↔
      ((driverStep fmt done envs st v).2.outcome = .timedOut ∧
        (driverStep fmt done envs st v).2.timeoutAfter % 3 = 0) ∨
      ((driverStep fmt done envs st v).2.outcome = .succeeded ∧
        (driverStep fmt done envs st v).2.processedAfter % 300 = 0)) ∧
    ((driverStep fmt done envs st v).2.reloaded = true →
      (driverStep fmt done envs st v).1.workerGen = st.workerGen + 1) ∧
    ((driverStep fmt done envs st v).2.outcome = .timedOut →
      (driverStep fmt done envs st v).2.reloaded = true →
      (driverStep fmt done envs st v).1.processedCount = 0) := by
  by_cases hdone : v.path ∈ done
  · rw [driverStep_skip fmt done envs st v hdone]
    simp
  · rcases hres : (process_single_video_with_prediction st.hist v.info
        (envs v)).result with _ | s
    · rw [driverStep_failed fmt done envs st v hdone hres]
      simp
    · by_cases hs : s = "TIMEOUT"
      · subst hs
        rw [driverStep_timeout fmt done envs st v hdone hres]
        by_cases h3 : (st.timeoutCount + 1) % 3 = 0 <;> simp [h3]
      · rw [driverStep_success fmt done envs st v s hdone hres hs]
        by_cases h3 : (st.processedCount + 1) % 300 = 0 <;> simp [h3]

/-- C7 witness: with the timeout counter at 2, one more timeout reaches the
multiple-of-3 boundary, reloads the worker, and resets the success counter. -/
theorem C7_reload_policy_witness :
    (driverStep .jsonl [] envsSel ⟨[], [], 2, 5, 0, [], []⟩
      itemT).1.processedCount = 0 :=
  (C7_reload_policy .jsonl [] envsSel ⟨[], [], 2, 5, 0, [], []⟩ itemT).2.2
    (by decide) (by decide)

set_option maxRecDepth 100000 in
/-- C7 counterexample: on the backlog `c7videos` (299 successes, three
timeouts whose third reloads the model and resets the success counter, then
one more success) the final step is the 300th cumulative success, yet it does
not trigger a reload — its counter stands at 1 — refuting the claim that the
worker is reloaded after every 300 successfully processed items independently
of the timeout trigger. -/
theorem C7_counterexample :
    ((runDriver .jsonl c7videos envsSel [] []).2.filter
      (fun lg => decide (lg.outcome = .succeeded))).length = 300 ∧
    (runDriver .jsonl c7videos envsSel [] []).2.getLast?.map StepLog.outcome =
      some .succeeded ∧
    (runDriver .jsonl c7videos envsSel [] []).2.getLast?.map StepLog.reloaded =
      some false ∧
    (runDriver .jsonl c7videos envsSel [] []).2.getLast?.map
      StepLog.processedAfter = some 1 := by
  decide

/-- C5: running the queue driver a second time over the surviving backlog (the
items not moved to either quarantine by the first run) with the first run's
sink and history performs zero additional worker invocations: every item is
skipped without being re-attempted or re-probed, no quarantine is touched, and
the sink, history, counters and worker generation are unchanged. -/
theorem C5_idempotence (fmt : Fmt) (videos : List Item)
    (envs1 envs2 : Item → ℕ → AttemptEnv) (sink0 : List String)
    (hist0 : List VideoInfo) (hnd : (videos.map Item.path).Nodup) :
    ((runDriver fmt
        (videos.filter (fun v => decide
          (v.path ∉ (runDriver fmt videos envs1 sink0 hist0).1.movedTimeout ∧
           v.path ∉ (runDriver fmt videos envs1 sink0 hist0).1.movedBad)))
        envs2 (runDriver fmt videos envs1 sink0 hist0).1.sink
        (runDriver fmt videos envs1 sink0 hist0).1.hist).1 =
      ⟨(runDriver fmt videos envs1 sink0 hist0).1.sink,
        (runDriver fmt videos envs1 sink0 hist0).1.hist, 0, 0, 0, [], []⟩) ∧
    (∀ lg ∈ (runDriver fmt
        (videos.filter (fun v => decide
          (v.path ∉ (runDriver fmt videos envs1 sink0 hist0).1.movedTimeout ∧
           v.path ∉ (runDriver fmt videos envs1 sink0 hist0).1.movedBad)))
        envs2 (runDriver fmt videos envs1 sink0 hist0).1.sink
        (runDriver fmt videos envs1 sink0 hist0).1.hist).2,
      lg.outcome = .skipped ∧ lg.invoked = false ∧ lg.workerCalls = 0) := by
  have hkey : ∀ v ∈ videos.filter (fun v => decide
      (v.path ∉ (runDriver fmt videos envs1 sink0 hist0).1.movedTimeout ∧
       v.path ∉ (runDriver fmt videos envs1 sink0 hist0).1.movedBad)),
      itemKey fmt v ∈ (runDriver fmt videos envs1 sink0 hist0).1.sink := by
    intro v hv
    have hv2 := List.mem_filter.mp hv
    have hpred := of_decide_eq_true hv2.2
    rcases runFrom_disposition fmt (doneSet fmt sink0 videos) envs1 videos
        ⟨sink0, hist0, 0, 0, 0, [], []⟩ v hv2.1 with h | h | h | h
    · have hkey0 : itemKey fmt v ∈ sink0 :=
        doneSet_key fmt sink0 videos v hnd hv2.1 h
      exact runFrom_sink_mono fmt (doneSet fmt sink0 videos) envs1 videos
        ⟨sink0, hist0, 0, 0, 0, [], []⟩ (itemKey fmt v) hkey0
    · exact absurd h hpred.1
    · exact absurd h hpred.2
    · exact h
  have hdone2 : ∀ v ∈ videos.filter (fun v => decide
      (v.path ∉ (runDriver fmt videos envs1 sink0 hist0).1.movedTimeout ∧
       v.path ∉ (runDriver fmt videos envs1 sink0 hist0).1.movedBad)),
      v.path ∈ doneSet fmt (runDriver fmt videos envs1 sink0 hist0).1.sink
        (videos.filter (fun v => decide
          (v.path ∉ (runDriver fmt videos envs1 sink0 hist0).1.movedTimeout ∧
           v.path ∉ (runDriver fmt videos envs1 sink0 hist0).1.movedBad))) := by
    intro v hv
    exact doneSet_of_key fmt (runDriver fmt videos envs1 sink0 hist0).1.sink
      (videos.filter (fun v => decide
        (v.path ∉ (runDriver fmt videos envs1 sink0 hist0).1.movedTimeout ∧
         v.path ∉ (runDriver fmt videos envs1 sink0 hist0).1.movedBad)))
      v hv (hkey v hv)
  exact runFrom_all_skip fmt
    (doneSet fmt (runDriver fmt videos envs1 sink0 hist0).1.sink
      (videos.filter (fun v => decide
        (v.path ∉ (runDriver fmt videos envs1 sink0 hist0).1.movedTimeout ∧
         v.path ∉ (runDriver fmt videos envs1 sink0 hist0).1.movedBad))))
    envs2
    (videos.filter (fun v => decide
      (v.path ∉ (runDriver fmt videos envs1 sink0 hist0).1.movedTimeout ∧
       v.path ∉ (runDriver fmt videos envs1 sink0 hist0).1.movedBad)))
    ⟨(runDriver fmt videos envs1 sink0 hist0).1.sink,
      (runDriver fmt videos envs1 sink0 hist0).1.hist, 0, 0, 0, [], []⟩
    hdone2

/-- C5 witness: a one-item backlog processed once and re-run registers the item
as already captioned, leaving the second-run state untouched. -/
theorem C5_idempotence_witness :
    (runDriver .jsonl
        ([itemA].filter (fun v => decide
          (v.path ∉ (runDriver .jsonl [itemA] envsSel [] []).1.movedTimeout ∧
           v.path ∉ (runDriver .jsonl [itemA] envsSel [] []).1.movedBad)))
        envsSel (runDriver .jsonl [itemA] envsSel [] []).1.sink
        (runDriver .jsonl [itemA] envsSel [] []).1.hist).1 =
      ⟨(runDriver .jsonl [itemA] envsSel [] []).1.sink,
        (runDriver .jsonl [itemA] envsSel [] []).1.hist, 0, 0, 0, [], []⟩ :=
  (C5_idempotence .jsonl [itemA] envsSel envsSel [] [] (by decide)).1
